import Mathlib

/-!
Shallow embedding of the memory-allocation tracker in
`src/memory_manager.c` (fixed-capacity slot table, the primary variant)
and, for the allocator-failure behaviour, of the linked-list variant in
`src/memory_management_tool.c`.

Machine integers: `size_t` and `uint64_t` values are natural numbers
reduced modulo `2 ^ 64` exactly where the C arithmetic wraps
(`add64` / `sub64`).  Pointers are natural numbers with `0` playing the
role of `NULL`; the `malloc` result is an oracle supplied as an input of
each allocate operation.  Side effects (diagnostics on `stderr`, calls
to `malloc` / `free`) are recorded as an event list returned next to the
new state.
-/

set_option maxRecDepth 100000

namespace MemMgr

/-- Word size of `size_t` / `uint64_t` arithmetic. -/
def M64 : Nat := 2 ^ 64

/-- Wrapping 64-bit addition, as C unsigned `+`. -/
def add64 (a b : Nat) : Nat := (a + b) % M64

/-- Wrapping 64-bit subtraction, as C unsigned `-`. -/
def sub64 (a b : Nat) : Nat := (a + M64 - b % M64) % M64

/-- Constant `MAX_FILENAME_LENGTH` from `memory_manager.h`. -/
def MAX_FILENAME_LENGTH : Nat := 256

/-- Constant `MAX_TRACKED_BLOCKS` from `memory_manager.h`. -/
def MAX_TRACKED_BLOCKS : Nat := 1000

/-- Enum `MemoryAllocationType` from `memory_manager.h`. -/
inductive MemoryAllocationType where
  | MEMORY_TYPE_STATIC
  | MEMORY_TYPE_DYNAMIC
  | MEMORY_TYPE_TEMPORARY
  | MEMORY_TYPE_PERSISTENT
deriving DecidableEq

/-- Enum `MemoryStatus` from `memory_manager.h`; `MEMORY_STATUS_ALLOCATED`
is the enum value `0`, so a zeroed record carries it. -/
inductive MemoryStatus where
  | MEMORY_STATUS_ALLOCATED
  | MEMORY_STATUS_FREED
  | MEMORY_STATUS_CORRUPTED
deriving DecidableEq

/-- Struct `MemoryBlock` from `memory_manager.h`.  The `filename` array
is modelled as the stored string; `pointer` is a numeric address with
`0` as `NULL`. -/
structure MemoryBlock where
  pointer : Nat
  size : Nat
  filename : String
  line_number : Int
  type : MemoryAllocationType
  status : MemoryStatus
  timestamp : Nat
deriving DecidableEq

/-- The all-zero `MemoryBlock`, as produced by `memset(0)`: null pointer,
zero size, empty string, enum value `0` in both enum fields. -/
def zeroBlock : MemoryBlock :=
  { pointer := 0, size := 0, filename := "", line_number := 0,
    type := .MEMORY_TYPE_STATIC, status := .MEMORY_STATUS_ALLOCATED,
    timestamp := 0 }

/-- Struct `MemoryTracker` from `memory_manager.h`: the fixed table of
`MAX_TRACKED_BLOCKS` slots plus the two aggregate counters. -/
structure MemoryTracker where
  blocks : List MemoryBlock
  current_block_count : Nat
  total_allocated_memory : Nat
deriving DecidableEq

/-- The zeroed tracker, as `static MemoryTracker g_memory_tracker = {0}`
and as re-established by `memory_manager_init`. -/
def emptyTracker : MemoryTracker :=
  { blocks := List.replicate MAX_TRACKED_BLOCKS zeroBlock,
    current_block_count := 0, total_allocated_memory := 0 }

/-- Whole mutable state of `memory_manager.c`: the global tracker plus
the `static uint64_t timestamp` counter inside `get_current_timestamp`. -/
structure State where
  tracker : MemoryTracker
  timestampCounter : Nat
deriving DecidableEq

/-- Process-start state: zeroed tracker and zeroed timestamp counter. -/
def initState : State := { tracker := emptyTracker, timestampCounter := 0 }

/-- Observable side effects of one operation: diagnostics written to
`stderr` and the calls into the underlying allocator. -/
inductive Event where
  | warnZeroByte
  | errTrackerFull
  | critAllocFailed (filename : String) (line_number : Int)
  | critTrackingFailed
  | mallocCall (size : Nat)
  | freeCall (ptr : Nat)
  | warnFreeNull (filename : String) (line_number : Int)
  | warnUntrackedFree (filename : String) (line_number : Int)
deriving DecidableEq

/-- Result of an allocate call: either the function returned a pointer
value (with `0` standing for `NULL`) or the process was halted via
`exit`.  The table variant never halts; the linked-list variant does on
allocator failure. -/
inductive AllocOutcome where
  | halted
  | ret (ptr : Nat)
deriving DecidableEq

/-- Index of the first list element satisfying `p`, as the C loops
`for (i = 0; i < MAX_TRACKED_BLOCKS; i++)` over the table. -/
def scanIdx {α : Type} (p : α → Bool) : List α → Option Nat
  | [] => none
  | b :: bs => if p b then some 0 else (scanIdx p bs).map (· + 1)

/-- Function `find_available_slot` from `memory_manager.c`: first slot whose
`pointer` is `NULL` (`none` models the C return value `-1`). -/
def find_available_slot (blocks : List MemoryBlock) : Option Nat :=
  scanIdx (fun b => b.pointer == 0) blocks

/-- Effect of `strncpy` into the 256-byte `filename` array with forced terminator:
at most the first 255 characters are kept. -/
def truncateName (s : String) : String := s.take (MAX_FILENAME_LENGTH - 1)

/-- Function `memory_manager_init` from `memory_manager.c`: `memset` of the whole
tracker (the timestamp counter is a separate static and is untouched). -/
def memory_manager_init (st : State) : State :=
  { st with tracker := emptyTracker }

/-- Function `safe_memory_allocate` from `memory_manager.c`.  `mallocResult` is
the oracle value returned by `malloc(size)` (`0` = allocation failure);
the call is only recorded (`Event.mallocCall`) on the paths where the C
code reaches `malloc`. -/
def safe_memory_allocate (st : State) (size : Nat) (filename : String)
    (line_number : Int) (ty : MemoryAllocationType) (mallocResult : Nat) :
    State × List Event × AllocOutcome :=
  let size := size % M64
  if size = 0 then
    (st, [.warnZeroByte], .ret 0)
  else if MAX_TRACKED_BLOCKS ≤ st.tracker.current_block_count then
    (st, [.errTrackerFull], .ret 0)
  else
    let memory := mallocResult % M64
    if memory = 0 then
      (st, [.mallocCall size, .critAllocFailed filename line_number], .ret 0)
    else
      match find_available_slot st.tracker.blocks with
      | none => (st, [.mallocCall size, .freeCall memory], .ret 0)
      | some slot =>
        let ts := add64 st.timestampCounter 1
        let block : MemoryBlock :=
          { pointer := memory, size := size,
            filename := truncateName filename,
            line_number := line_number, type := ty,
            status := .MEMORY_STATUS_ALLOCATED, timestamp := ts }
        ({ tracker :=
             { blocks := st.tracker.blocks.set slot block,
               current_block_count :=
                 add64 st.tracker.current_block_count 1,
               total_allocated_memory :=
                 add64 st.tracker.total_allocated_memory size },
           timestampCounter := ts },
         [.mallocCall size], .ret memory)

/-- The lookup-and-clear loop of `safe_memory_free`: on the first slot
whose `pointer` equals `memory`, remember its `size` and clear the slot
to `zeroBlock` (`memset(block, 0, ...)`); `none` when no slot matches. -/
def freeScan (memory : Nat) : List MemoryBlock → Option (List MemoryBlock × Nat)
  | [] => none
  | b :: bs =>
    if b.pointer == memory then some (zeroBlock :: bs, b.size)
    else (freeScan memory bs).map (fun r => (b :: r.1, r.2))

/-- Function `safe_memory_free` from `memory_manager.c`. -/
def safe_memory_free (st : State) (memory : Nat) (filename : String)
    (line_number : Int) : State × List Event :=
  if memory = 0 then
    (st, [.warnFreeNull filename line_number])
  else
    match freeScan memory st.tracker.blocks with
    | some (blocks', sz) =>
      ({ st with tracker :=
           { blocks := blocks',
             current_block_count :=
               sub64 st.tracker.current_block_count 1,
             total_allocated_memory :=
               sub64 st.tracker.total_allocated_memory sz } },
       [.freeCall memory])
    | none =>
      (st, [.warnUntrackedFree filename line_number, .freeCall memory])

/-- The report loop of `generate_memory_report`: for each index `i` in
table order, emit `(i, block)` exactly when `block->pointer` is
non-null. -/
def reportEntries (i : Nat) : List MemoryBlock → List (Nat × MemoryBlock)
  | [] => []
  | b :: bs =>
    if b.pointer != 0 then (i, b) :: reportEntries (i + 1) bs
    else reportEntries (i + 1) bs

/-- Data printed by `generate_memory_report`: the two aggregates and the
occupied slots in ascending index order. -/
structure Report where
  total_blocks : Nat
  total_allocated : Nat
  entries : List (Nat × MemoryBlock)
deriving DecidableEq

/-- Function `generate_memory_report` from `memory_manager.c`: a read-only
function of the state. -/
def generate_memory_report (st : State) : Report :=
  { total_blocks := st.tracker.current_block_count,
    total_allocated := st.tracker.total_allocated_memory,
    entries := reportEntries 0 st.tracker.blocks }

/-- Accessor `get_total_allocated_memory` from `memory_manager.c`. -/
def get_total_allocated_memory (st : State) : Nat :=
  st.tracker.total_allocated_memory

/-- Accessor `get_current_block_count` from `memory_manager.c`. -/
def get_current_block_count (st : State) : Nat :=
  st.tracker.current_block_count

/-- One public operation of the tracker, with the `malloc` oracle result
attached to allocate calls. -/
inductive Op where
  | opInit
  | opAlloc (size : Nat) (filename : String) (line_number : Int)
      (ty : MemoryAllocationType) (mallocResult : Nat)
  | opFree (ptr : Nat) (filename : String) (line_number : Int)
  | opReport
deriving DecidableEq

/-- State transition of one operation (`generate_memory_report` only
reads the table). -/
def step (st : State) : Op → State
  | .opInit => memory_manager_init st
  | .opAlloc size f l ty m => (safe_memory_allocate st size f l ty m).1
  | .opFree p f l => (safe_memory_free st p f l).1
  | .opReport => st

/-- State after running a sequence of operations from process start. -/
def run (ops : List Op) : State := ops.foldl step initState

/-- A slot is occupied when its pointer is non-null. -/
def isOccupied (b : MemoryBlock) : Bool := b.pointer != 0

/-- Number of occupied slots, recomputed from the table. -/
def occupiedCount (l : List MemoryBlock) : Nat := l.countP isOccupied

/-- Sum of `size` over the occupied slots, recomputed from the table. -/
def occupiedBytes (l : List MemoryBlock) : Nat :=
  (l.map (fun b => if isOccupied b then b.size else 0)).sum

/-- Well-formedness of a reachable state: fixed table length, aggregates
consistent with a full-table recomputation, all fields in 64-bit range,
and every slot's status equal to `MEMORY_STATUS_ALLOCATED`. -/
def WF (st : State) : Prop :=
  st.tracker.blocks.length = MAX_TRACKED_BLOCKS ∧
  st.tracker.current_block_count = occupiedCount st.tracker.blocks ∧
  st.tracker.total_allocated_memory = occupiedBytes st.tracker.blocks % M64 ∧
  ∀ b ∈ st.tracker.blocks,
    b.pointer < M64 ∧ b.size < M64 ∧ b.status = .MEMORY_STATUS_ALLOCATED

/-- Did this operation, taken in this state, allocate successfully
(return a non-null handle)? -/
def opAllocSucc (st : State) : Op → Bool
  | .opAlloc size f l ty m =>
    match (safe_memory_allocate st size f l ty m).2.2 with
    | .ret q => q != 0
    | .halted => false
  | _ => false

/-- Did this operation, taken in this state, free a tracked block
(non-null pointer matching an occupied slot)? -/
def opFreeSucc (st : State) : Op → Bool
  | .opFree p _ _ => p != 0 && (freeScan p st.tracker.blocks).isSome
  | _ => false

/-- Count of successful allocations and successful tracked frees along
a run of operations from a given state. -/
def runSucc : State → List Op → Nat × Nat
  | _, [] => (0, 0)
  | st, op :: ops =>
    let rest := runSucc (step st op) ops
    ((if opAllocSucc st op then 1 else 0) + rest.1,
     (if opFreeSucc st op then 1 else 0) + rest.2)

/-- Enum `MemoryAllocationType` of `memory_management_tool.c` (the
linked-list variant has only three values). -/
inductive ToolAllocType where
  | MEMORY_TYPE_STATIC
  | MEMORY_TYPE_DYNAMIC
  | MEMORY_TYPE_TEMPORARY
deriving DecidableEq

/-- Node struct `MemoryBlock` of the linked-list tracker in
`memory_management_tool.c`; the `next` pointers are modelled by the
enclosing list. -/
structure ToolMemoryBlock where
  pointer : Nat
  size : Nat
  filename : String
  line_number : Int
  type : ToolAllocType
deriving DecidableEq

/-- Function `safe_memory_allocate` from `memory_management_tool.c`.  Two malloc
oracles: `mallocResult` for the payload (`0` = failure) and
`trackingMallocOk` for the tracking node.  On payload-allocation failure
this variant prints the CRITICAL diagnostic and calls
`exit(EXIT_FAILURE)`, modelled as `AllocOutcome.halted`; on tracking
allocation failure it frees the payload first and also halts. -/
def tool_safe_memory_allocate (tracker : List ToolMemoryBlock) (size : Nat)
    (filename : String) (line_number : Int) (ty : ToolAllocType)
    (mallocResult : Nat) (trackingMallocOk : Bool) :
    List ToolMemoryBlock × List Event × AllocOutcome :=
  let size := size % M64
  if size = 0 then
    (tracker, [.warnZeroByte], .ret 0)
  else
    let allocated_memory := mallocResult % M64
    if allocated_memory = 0 then
      (tracker, [.mallocCall size, .critAllocFailed filename line_number],
        .halted)
    else if trackingMallocOk = false then
      (tracker,
        [.mallocCall size, .freeCall allocated_memory, .critTrackingFailed],
        .halted)
    else
      ({ pointer := allocated_memory, size := size,
         filename := truncateName filename, line_number := line_number,
         type := ty } :: tracker,
       [.mallocCall size], .ret allocated_memory)

/-- A sample occupied record, used to instantiate theorems at concrete
inputs. -/
def demoBlock : MemoryBlock :=
  { pointer := 7, size := 20, filename := "main.c", line_number := 27,
    type := .MEMORY_TYPE_DYNAMIC, status := .MEMORY_STATUS_ALLOCATED,
    timestamp := 1 }

/-- A small sample state with one occupied and one free slot. -/
def demoState : State :=
  { tracker := { blocks := [demoBlock, zeroBlock],
                 current_block_count := 1, total_allocated_memory := 20 },
    timestampCounter := 1 }

/-- A sample state whose table has no free slot while the counter is
below capacity; it exercises the defensive no-free-slot path of
`safe_memory_allocate`. -/
def noSlotState : State :=
  { tracker := { blocks := [demoBlock],
                 current_block_count := 0, total_allocated_memory := 0 },
    timestampCounter := 0 }

/-! ### Arithmetic helper lemmas -/

theorem M64_lit : M64 = 18446744073709551616 := by norm_num [M64]

theorem M64_pos : 0 < M64 := by rw [M64_lit]; omega

theorem add64_mod_left (s b : Nat) : add64 (s % M64) b = (s + b) % M64 := by
  simp [add64, Nat.mod_add_mod]

theorem add64_small (a b : Nat) (h : a + b < M64) : add64 a b = a + b := by
  simp [add64, Nat.mod_eq_of_lt h]

theorem sub64_mod_left (s b : Nat) (hb : b < M64) (hbs : b ≤ s) :
    sub64 (s % M64) b = (s - b) % M64 := by
  simp only [sub64]
  rw [M64_lit] at hb ⊢
  omega

theorem sub64_small (a b : Nat) (ha : a < M64) (hba : b ≤ a) :
    sub64 a b = a - b := by
  simp only [sub64]
  rw [M64_lit] at ha ⊢
  omega

/-! ### Lemmas about the linear scans -/

theorem scanIdx_none_iff {α : Type} (p : α → Bool) :
    ∀ l : List α, scanIdx p l = none ↔ ∀ b ∈ l, p b = false := by
  intro l
  induction l with
  | nil => simp [scanIdx]
  | cons b bs ih =>
    by_cases hb : p b
    · simp [scanIdx, hb]
    · rw [scanIdx]
      simp only [hb, if_false, List.mem_cons]
      constructor
      · intro h c hc
        rcases hc with rfl | hc
        · simpa using hb
        · have hnone : scanIdx p bs = none := by
            cases hh : scanIdx p bs
            · rfl
            · rw [hh] at h; simp at h
          exact (ih.mp hnone) c hc
      · intro h
        have hnone : scanIdx p bs = none :=
          ih.mpr (fun c hc => h c (Or.inr hc))
        simp [hnone]

theorem scanIdx_some_spec {α : Type} (p : α → Bool) (d : α) :
    ∀ (l : List α) (i : Nat), scanIdx p l = some i →
      i < l.length ∧ p (l.getD i d) = true ∧
        ∀ j, j < i → p (l.getD j d) = false := by
  intro l
  induction l with
  | nil => intro i h; simp [scanIdx] at h
  | cons b bs ih =>
    intro i h
    by_cases hb : p b
    · simp [scanIdx, hb] at h
      subst h
      refine ⟨by simp, by simpa using hb, ?_⟩
      intro j hj
      omega
    · rw [scanIdx] at h
      simp only [hb, if_false] at h
      cases hh : scanIdx p bs with
      | none => rw [hh] at h; simp at h
      | some i' =>
        rw [hh] at h
        simp at h
        obtain ⟨h1, h2, h3⟩ := ih i' hh
        subst h
        refine ⟨by simpa using h1, by simpa using h2, ?_⟩
        intro j hj
        cases j with
        | zero => simpa using hb
        | succ j' => simpa using h3 j' (by omega)

theorem scanIdx_isSome_of_exists {α : Type} (p : α → Bool) (l : List α)
    (h : ∃ b ∈ l, p b = true) : ∃ i, scanIdx p l = some i := by
  cases hh : scanIdx p l with
  | none =>
    obtain ⟨b, hb, hpb⟩ := h
    have := (scanIdx_none_iff p l).mp hh b hb
    rw [hpb] at this
    cases this
  | some i => exact ⟨i, rfl⟩

theorem freeScan_eq (m : Nat) :
    ∀ l : List MemoryBlock,
      freeScan m l = (scanIdx (fun b => b.pointer == m) l).map
        (fun i => (l.set i zeroBlock, (l.getD i zeroBlock).size)) := by
  intro l
  induction l with
  | nil => simp [freeScan, scanIdx]
  | cons b bs ih =>
    by_cases hb : b.pointer == m
    · simp [freeScan, scanIdx, hb]
    · rw [freeScan, scanIdx]
      simp only [hb, if_false, ih]
      cases hh : scanIdx (fun b => b.pointer == m) bs with
      | none => simp
      | some i => simp

/-! ### Counting and summing occupied slots over `List.set` -/

theorem getD_mem {α : Type} (d : α) :
    ∀ (l : List α) (i : Nat), i < l.length → l.getD i d ∈ l := by
  intro l
  induction l with
  | nil => intro i h; simp at h
  | cons b bs ih =>
    intro i h
    cases i with
    | zero => simp
    | succ i' =>
      have h' : i' < bs.length := by simpa using h
      simpa using Or.inr (ih i' h')

theorem occupiedCount_set_occ :
    ∀ (l : List MemoryBlock) (i : Nat) (a : MemoryBlock), i < l.length →
      isOccupied (l.getD i zeroBlock) = false → isOccupied a = true →
      occupiedCount (l.set i a) = occupiedCount l + 1 := by
  intro l
  induction l with
  | nil => intro i a h; simp at h
  | cons b bs ih =>
    intro i a h hold hnew
    cases i with
    | zero =>
      rw [List.getD_cons_zero] at hold
      simp [occupiedCount, List.countP_cons, hold, hnew]
    | succ i' =>
      have h' : i' < bs.length := by simpa using h
      rw [List.getD_cons_succ] at hold
      have := ih i' a h' hold hnew
      simp only [List.set_cons_succ, occupiedCount, List.countP_cons] at this ⊢
      omega

theorem occupiedCount_set_unocc :
    ∀ (l : List MemoryBlock) (i : Nat) (a : MemoryBlock), i < l.length →
      isOccupied (l.getD i zeroBlock) = true → isOccupied a = false →
      occupiedCount (l.set i a) + 1 = occupiedCount l := by
  intro l
  induction l with
  | nil => intro i a h; simp at h
  | cons b bs ih =>
    intro i a h hold hnew
    cases i with
    | zero =>
      rw [List.getD_cons_zero] at hold
      simp [occupiedCount, List.countP_cons, hold, hnew]
    | succ i' =>
      have h' : i' < bs.length := by simpa using h
      rw [List.getD_cons_succ] at hold
      have := ih i' a h' hold hnew
      simp only [List.set_cons_succ, occupiedCount, List.countP_cons] at this ⊢
      omega

theorem occupiedBytes_set_occ :
    ∀ (l : List MemoryBlock) (i : Nat) (a : MemoryBlock), i < l.length →
      isOccupied (l.getD i zeroBlock) = false → isOccupied a = true →
      occupiedBytes (l.set i a) = occupiedBytes l + a.size := by
  intro l
  induction l with
  | nil => intro i a h; simp at h
  | cons b bs ih =>
    intro i a h hold hnew
    cases i with
    | zero =>
      rw [List.getD_cons_zero] at hold
      simp [occupiedBytes, List.map_cons, List.sum_cons, hold, hnew]
      omega
    | succ i' =>
      have h' : i' < bs.length := by simpa using h
      rw [List.getD_cons_succ] at hold
      have := ih i' a h' hold hnew
      simp only [List.set_cons_succ, occupiedBytes, List.map_cons,
        List.sum_cons] at this ⊢
      omega

theorem occupiedBytes_set_unocc :
    ∀ (l : List MemoryBlock) (i : Nat) (a : MemoryBlock), i < l.length →
      isOccupied (l.getD i zeroBlock) = true → isOccupied a = false →
      occupiedBytes (l.set i a) + (l.getD i zeroBlock).size
        = occupiedBytes l := by
  intro l
  induction l with
  | nil => intro i a h; simp at h
  | cons b bs ih =>
    intro i a h hold hnew
    cases i with
    | zero =>
      rw [List.getD_cons_zero] at hold
      rw [List.getD_cons_zero]
      simp [occupiedBytes, List.map_cons, List.sum_cons, hold, hnew]
      omega
    | succ i' =>
      have h' : i' < bs.length := by simpa using h
      rw [List.getD_cons_succ] at hold
      rw [List.getD_cons_succ]
      have := ih i' a h' hold hnew
      simp only [List.set_cons_succ, occupiedBytes, List.map_cons,
        List.sum_cons] at this ⊢
      omega

theorem size_le_occupiedBytes :
    ∀ (l : List MemoryBlock) (b : MemoryBlock), b ∈ l →
      isOccupied b = true → b.size ≤ occupiedBytes l := by
  intro l
  induction l with
  | nil => intro b h; simp at h
  | cons c cs ih =>
    intro b h hocc
    rcases List.mem_cons.mp h with rfl | h'
    · simp only [occupiedBytes, List.map_cons, List.sum_cons, hocc, if_pos]
      omega
    · have := ih b h' hocc
      simp only [occupiedBytes, List.map_cons, List.sum_cons] at this ⊢
      omega

/-! ### Lemmas about the report loop -/

theorem reportEntries_mem :
    ∀ (l : List MemoryBlock) (i j : Nat) (b : MemoryBlock),
      (j, b) ∈ reportEntries i l ↔
        ∃ k, l.get? k = some b ∧ j = i + k ∧ b.pointer ≠ 0 := by
  intro l
  induction l with
  | nil => intro i j b; simp [reportEntries]
  | cons c cs ih =>
    intro i j b
    rw [reportEntries]
    by_cases hc : c.pointer != 0
    · rw [if_pos hc]
      simp only [List.mem_cons, Prod.mk.injEq, ih]
      constructor
      · rintro (⟨rfl, rfl⟩ | ⟨k, hk, rfl, hb⟩)
        · exact ⟨0, by simp, by omega, by simpa using hc⟩
        · exact ⟨k + 1, by simpa using hk, by omega, hb⟩
      · rintro ⟨k, hk, rfl, hb⟩
        cases k with
        | zero =>
          left
          have : c = b := by simpa using hk
          exact ⟨by omega, this.symm⟩
        | succ k' =>
          right
          exact ⟨k', by simpa using hk, by omega, hb⟩
    · rw [if_neg hc]
      rw [ih]
      have hc0 : c.pointer = 0 := by simpa using hc
      constructor
      · rintro ⟨k, hk, rfl, hb⟩
        exact ⟨k + 1, by simpa using hk, by omega, hb⟩
      · rintro ⟨k, hk, rfl, hb⟩
        cases k with
        | zero =>
          have : c = b := by simpa using hk
          subst this
          exact absurd hc0 hb
        | succ k' =>
          exact ⟨k', by simpa using hk, by omega, hb⟩

theorem reportEntries_lower :
    ∀ (l : List MemoryBlock) (i : Nat) (pr : Nat × MemoryBlock),
      pr ∈ reportEntries i l → i ≤ pr.1 := by
  intro l
  induction l with
  | nil => intro i pr h; simp [reportEntries] at h
  | cons c cs ih =>
    intro i pr h
    rw [reportEntries] at h
    by_cases hc : c.pointer != 0
    · rw [if_pos hc] at h
      rcases List.mem_cons.mp h with rfl | h'
      · simp
      · have := ih (i + 1) pr h'
        omega
    · rw [if_neg hc] at h
      have := ih (i + 1) pr h
      omega

theorem reportEntries_pairwise :
    ∀ (l : List MemoryBlock) (i : Nat),
      List.Pairwise (fun p q => p.1 < q.1) (reportEntries i l) := by
  intro l
  induction l with
  | nil => intro i; simp [reportEntries]
  | cons c cs ih =>
    intro i
    rw [reportEntries]
    by_cases hc : c.pointer != 0
    · rw [if_pos hc]
      refine List.Pairwise.cons ?_ (ih (i + 1))
      intro q hq
      have := reportEntries_lower cs (i + 1) q hq
      show i < q.1
      omega
    · rw [if_neg hc]
      exact ih (i + 1)

theorem reportEntries_length :
    ∀ (l : List MemoryBlock) (i : Nat),
      (reportEntries i l).length = occupiedCount l := by
  intro l
  induction l with
  | nil => intro i; simp [reportEntries, occupiedCount]
  | cons c cs ih =>
    intro i
    rw [reportEntries]
    by_cases hc : c.pointer != 0
    · rw [if_pos hc]
      simp only [List.length_cons, ih (i + 1), occupiedCount,
        List.countP_cons, isOccupied, hc]
      simp
    · rw [if_neg hc]
      have hc' : isOccupied c = false := by
        simp only [isOccupied]
        simpa using hc
      simp only [ih (i + 1), occupiedCount, List.countP_cons, hc']
      simp

/-! ### Shape of the state after one operation -/

theorem alloc_state_cases (st : State) (size : Nat) (f : String) (l : Int)
    (ty : MemoryAllocationType) (m : Nat) :
    ((safe_memory_allocate st size f l ty m).1 = st ∧
      (safe_memory_allocate st size f l ty m).2.2 = .ret 0) ∨
    ∃ i, find_available_slot st.tracker.blocks = some i ∧
      size % M64 ≠ 0 ∧
      st.tracker.current_block_count < MAX_TRACKED_BLOCKS ∧
      m % M64 ≠ 0 ∧
      (safe_memory_allocate st size f l ty m).1 =
        { tracker :=
            { blocks := st.tracker.blocks.set i
                { pointer := m % M64, size := size % M64,
                  filename := truncateName f, line_number := l, type := ty,
                  status := .MEMORY_STATUS_ALLOCATED,
                  timestamp := add64 st.timestampCounter 1 },
              current_block_count := add64 st.tracker.current_block_count 1,
              total_allocated_memory :=
                add64 st.tracker.total_allocated_memory (size % M64) },
          timestampCounter := add64 st.timestampCounter 1 } ∧
      (safe_memory_allocate st size f l ty m).2.2 = .ret (m % M64) := by
  by_cases h0 : size % M64 = 0
  · exact Or.inl ⟨by simp [safe_memory_allocate, h0],
      by simp [safe_memory_allocate, h0]⟩
  · by_cases hcap : MAX_TRACKED_BLOCKS ≤ st.tracker.current_block_count
    · exact Or.inl ⟨by simp [safe_memory_allocate, h0, hcap],
        by simp [safe_memory_allocate, h0, hcap]⟩
    · by_cases hm : m % M64 = 0
      · exact Or.inl ⟨by simp [safe_memory_allocate, h0, hcap, hm],
          by simp [safe_memory_allocate, h0, hcap, hm]⟩
      · cases hfind : find_available_slot st.tracker.blocks with
        | none =>
          exact Or.inl ⟨by simp [safe_memory_allocate, h0, hcap, hm, hfind],
            by simp [safe_memory_allocate, h0, hcap, hm, hfind]⟩
        | some i =>
          right
          refine ⟨i, rfl, h0, by omega, hm, ?_, ?_⟩
          · simp [safe_memory_allocate, h0, hcap, hm, hfind]
          · simp [safe_memory_allocate, h0, hcap, hm, hfind]

theorem free_state_cases (st : State) (p : Nat) (f : String) (l : Int) :
    (safe_memory_free st p f l).1 = st ∨
    ∃ i, p ≠ 0 ∧
      scanIdx (fun b => b.pointer == p) st.tracker.blocks = some i ∧
      (safe_memory_free st p f l).1 =
        { st with tracker :=
            { blocks := st.tracker.blocks.set i zeroBlock,
              current_block_count :=
                sub64 st.tracker.current_block_count 1,
              total_allocated_memory :=
                sub64 st.tracker.total_allocated_memory
                  (st.tracker.blocks.getD i zeroBlock).size } } := by
  by_cases hp : p = 0
  · left; simp [safe_memory_free, hp]
  · cases hscan : scanIdx (fun b => b.pointer == p) st.tracker.blocks with
    | none =>
      left
      have hfs : freeScan p st.tracker.blocks = none := by
        rw [freeScan_eq, hscan]; rfl
      simp [safe_memory_free, hp, hfs]
    | some i =>
      right
      have hfs : freeScan p st.tracker.blocks =
          some (st.tracker.blocks.set i zeroBlock,
            (st.tracker.blocks.getD i zeroBlock).size) := by
        rw [freeScan_eq, hscan]; rfl
      exact ⟨i, hp, rfl, by simp [safe_memory_free, hp, hfs]⟩

/-! ### Preservation of well-formedness -/

theorem WF_empty (ts : Nat) :
    WF { tracker := emptyTracker, timestampCounter := ts } := by
  refine ⟨by simp [emptyTracker], ?_, ?_, ?_⟩
  · show 0 = occupiedCount (List.replicate MAX_TRACKED_BLOCKS zeroBlock)
    rw [occupiedCount, eq_comm, List.countP_eq_zero]
    intro b hb
    rw [List.eq_of_mem_replicate hb]
    simp [isOccupied, zeroBlock]
  · show 0 = occupiedBytes (List.replicate MAX_TRACKED_BLOCKS zeroBlock) % M64
    rw [occupiedBytes, List.map_replicate]
    simp [isOccupied, zeroBlock]
  · intro b hb
    rw [List.eq_of_mem_replicate hb]
    exact ⟨M64_pos, M64_pos, rfl⟩

theorem WF_alloc (st : State) (size : Nat) (f : String) (l : Int)
    (ty : MemoryAllocationType) (m : Nat) (h : WF st) :
    WF (safe_memory_allocate st size f l ty m).1 := by
  obtain ⟨hlen, hcount, htotal, hblocks⟩ := h
  rcases alloc_state_cases st size f l ty m with ⟨heq, -⟩ |
    ⟨i, hfind, h0, _, hm, heq, -⟩
  · rw [heq]; exact ⟨hlen, hcount, htotal, hblocks⟩
  · rw [heq]
    have hfind' : scanIdx (fun b => b.pointer == 0) st.tracker.blocks = some i :=
      hfind
    obtain ⟨hilt, hpi, _⟩ :=
      scanIdx_some_spec (fun b => b.pointer == 0) zeroBlock
        st.tracker.blocks i hfind'
    have hpi0 : (st.tracker.blocks.getD i zeroBlock).pointer = 0 :=
      eq_of_beq hpi
    have hoccD : isOccupied (st.tracker.blocks.getD i zeroBlock) = false := by
      unfold isOccupied
      rw [hpi0]
      rfl
    have hoccN : isOccupied
        ({ pointer := m % M64, size := size % M64,
           filename := truncateName f, line_number := l, type := ty,
           status := .MEMORY_STATUS_ALLOCATED,
           timestamp := add64 st.timestampCounter 1 } : MemoryBlock) = true := by
      unfold isOccupied
      simpa using hm
    have hocc := occupiedCount_set_occ st.tracker.blocks i _ hilt hoccD hoccN
    have hbytes := occupiedBytes_set_occ st.tracker.blocks i _ hilt hoccD hoccN
    have hle : occupiedCount st.tracker.blocks ≤ MAX_TRACKED_BLOCKS := by
      rw [← hlen, occupiedCount]
      exact List.countP_le_length isOccupied
    have hMAXlt : MAX_TRACKED_BLOCKS + 1 < M64 := by
      rw [M64_lit, MAX_TRACKED_BLOCKS]; omega
    refine ⟨by simp [List.length_set, hlen], ?_, ?_, ?_⟩
    · show add64 st.tracker.current_block_count 1 = occupiedCount _
      rw [hocc, hcount, add64_small _ _ (by omega)]
    · show add64 st.tracker.total_allocated_memory (size % M64)
        = occupiedBytes _ % M64
      rw [hbytes, htotal, add64_mod_left]
    · intro b hb
      rcases List.mem_or_eq_of_mem_set hb with hb' | rfl
      · exact hblocks b hb'
      · exact ⟨Nat.mod_lt m M64_pos, Nat.mod_lt size M64_pos, rfl⟩

theorem WF_free (st : State) (p : Nat) (f : String) (l : Int) (h : WF st) :
    WF (safe_memory_free st p f l).1 := by
  obtain ⟨hlen, hcount, htotal, hblocks⟩ := h
  rcases free_state_cases st p f l with heq | ⟨i, hp, hscan, heq⟩
  · rw [heq]; exact ⟨hlen, hcount, htotal, hblocks⟩
  · rw [heq]
    obtain ⟨hilt, hpi, _⟩ :=
      scanIdx_some_spec (fun b => b.pointer == p) zeroBlock
        st.tracker.blocks i hscan
    have hpip : (st.tracker.blocks.getD i zeroBlock).pointer = p :=
      eq_of_beq hpi
    have hoccD : isOccupied (st.tracker.blocks.getD i zeroBlock) = true := by
      unfold isOccupied
      rw [hpip]
      simpa using hp
    have hoccZ : isOccupied zeroBlock = false := rfl
    have hmem := getD_mem zeroBlock st.tracker.blocks i hilt
    obtain ⟨_, hszlt, _⟩ := hblocks _ hmem
    have hocc :=
      occupiedCount_set_unocc st.tracker.blocks i zeroBlock hilt hoccD hoccZ
    have hbytes :=
      occupiedBytes_set_unocc st.tracker.blocks i zeroBlock hilt hoccD hoccZ
    have hszle : (st.tracker.blocks.getD i zeroBlock).size
        ≤ occupiedBytes st.tracker.blocks :=
      size_le_occupiedBytes st.tracker.blocks _ hmem hoccD
    have hle : occupiedCount st.tracker.blocks ≤ MAX_TRACKED_BLOCKS := by
      rw [← hlen, occupiedCount]
      exact List.countP_le_length isOccupied
    have hMAXlt : MAX_TRACKED_BLOCKS + 1 < M64 := by
      rw [M64_lit, MAX_TRACKED_BLOCKS]; omega
    refine ⟨by simp [List.length_set, hlen], ?_, ?_, ?_⟩
    · show sub64 st.tracker.current_block_count 1
        = occupiedCount (st.tracker.blocks.set i zeroBlock)
      rw [hcount, sub64_small _ _ (by omega) (by omega)]
      omega
    · show sub64 st.tracker.total_allocated_memory
          (st.tracker.blocks.getD i zeroBlock).size
        = occupiedBytes (st.tracker.blocks.set i zeroBlock) % M64
      rw [htotal, sub64_mod_left _ _ hszlt hszle]
      have hb2 : occupiedBytes (st.tracker.blocks.set i zeroBlock)
          = occupiedBytes st.tracker.blocks
            - (st.tracker.blocks.getD i zeroBlock).size := by
        omega
      rw [hb2]
    · intro b hb
      rcases List.mem_or_eq_of_mem_set hb with hb' | rfl
      · exact hblocks b hb'
      · exact ⟨M64_pos, M64_pos, rfl⟩

theorem WF_step (st : State) (op : Op) (h : WF st) : WF (step st op) := by
  cases op with
  | opInit => exact WF_empty st.timestampCounter
  | opAlloc size f l ty m => exact WF_alloc st size f l ty m h
  | opFree p f l => exact WF_free st p f l h
  | opReport => exact h

theorem WF_foldl :
    ∀ (ops : List Op) (st : State), WF st → WF (ops.foldl step st) := by
  intro ops
  induction ops with
  | nil => intro st h; exact h
  | cons op ops ih =>
    intro st h
    exact ih (step st op) (WF_step st op h)

theorem WF_run (ops : List Op) : WF (run ops) :=
  WF_foldl ops initState (WF_empty 0)

/-! ### Further `List.set` and counting lemmas -/

theorem getD_set_eq {α : Type} (d : α) :
    ∀ (l : List α) (i : Nat) (a : α), i < l.length →
      (l.set i a).getD i d = a := by
  intro l
  induction l with
  | nil => intro i a h; simp at h
  | cons b bs ih =>
    intro i a h
    cases i with
    | zero => rfl
    | succ i' =>
      have h' : i' < bs.length := by simpa using h
      simpa [List.set_cons_succ, List.getD_cons_succ] using ih i' a h'

theorem getD_set_ne {α : Type} (d : α) :
    ∀ (l : List α) (i j : Nat) (a : α), j ≠ i →
      (l.set i a).getD j d = l.getD j d := by
  intro l
  induction l with
  | nil => intro i j a h; rfl
  | cons b bs ih =>
    intro i j a h
    cases i with
    | zero =>
      cases j with
      | zero => exact absurd rfl h
      | succ j' => rfl
    | succ i' =>
      cases j with
      | zero => rfl
      | succ j' =>
        have h' : j' ≠ i' := fun hc => h (by rw [hc])
        simpa [List.set_cons_succ, List.getD_cons_succ] using ih i' j' a h'

theorem countP_set_true_false {α : Type} (q : α → Bool) (d : α) :
    ∀ (l : List α) (i : Nat) (a : α), i < l.length →
      q (l.getD i d) = true → q a = false →
      (l.set i a).countP q + 1 = l.countP q := by
  intro l
  induction l with
  | nil => intro i a h; simp at h
  | cons b bs ih =>
    intro i a h hold hnew
    cases i with
    | zero =>
      rw [List.getD_cons_zero] at hold
      simp [List.countP_cons, hold, hnew]
    | succ i' =>
      have h' : i' < bs.length := by simpa using h
      rw [List.getD_cons_succ] at hold
      have := ih i' a h' hold hnew
      simp only [List.set_cons_succ, List.countP_cons] at this ⊢
      omega

/-! ### Effect of one operation on the number of occupied slots -/

theorem occ_alloc (st : State) (size : Nat) (f : String) (l : Int)
    (ty : MemoryAllocationType) (m : Nat) :
    ((safe_memory_allocate st size f l ty m).2.2 = .ret 0 ∧
      (safe_memory_allocate st size f l ty m).1 = st) ∨
    ((safe_memory_allocate st size f l ty m).2.2 = .ret (m % M64) ∧
      m % M64 ≠ 0 ∧
      occupiedCount (safe_memory_allocate st size f l ty m).1.tracker.blocks
        = occupiedCount st.tracker.blocks + 1) := by
  rcases alloc_state_cases st size f l ty m with ⟨hst, hret⟩ |
    ⟨i, hfind, h0, hcap, hm, hst, hret⟩
  · exact Or.inl ⟨hret, hst⟩
  · right
    refine ⟨hret, hm, ?_⟩
    rw [hst]
    have hfind' : scanIdx (fun b => b.pointer == 0) st.tracker.blocks
        = some i := hfind
    obtain ⟨hilt, hpi, -⟩ :=
      scanIdx_some_spec (fun b => b.pointer == 0) zeroBlock
        st.tracker.blocks i hfind'
    have hpi0 : (st.tracker.blocks.getD i zeroBlock).pointer = 0 :=
      eq_of_beq hpi
    have hoccD : isOccupied (st.tracker.blocks.getD i zeroBlock) = false := by
      unfold isOccupied
      rw [hpi0]
      rfl
    have hoccN : isOccupied
        ({ pointer := m % M64, size := size % M64,
           filename := truncateName f, line_number := l, type := ty,
           status := .MEMORY_STATUS_ALLOCATED,
           timestamp := add64 st.timestampCounter 1 } : MemoryBlock)
        = true := by
      unfold isOccupied
      simpa using hm
    exact occupiedCount_set_occ st.tracker.blocks i _ hilt hoccD hoccN

theorem occ_free_count (st : State) (p : Nat) (i : Nat) (hp : p ≠ 0)
    (hscan : scanIdx (fun b => b.pointer == p) st.tracker.blocks = some i) :
    occupiedCount (st.tracker.blocks.set i zeroBlock) + 1
      = occupiedCount st.tracker.blocks := by
  obtain ⟨hilt, hpi, -⟩ :=
    scanIdx_some_spec (fun b => b.pointer == p) zeroBlock
      st.tracker.blocks i hscan
  have hpip : (st.tracker.blocks.getD i zeroBlock).pointer = p :=
    eq_of_beq hpi
  have hoccD : isOccupied (st.tracker.blocks.getD i zeroBlock) = true := by
    unfold isOccupied
    rw [hpip]
    simpa using hp
  exact occupiedCount_set_unocc st.tracker.blocks i zeroBlock hilt hoccD rfl

theorem occ_foldl :
    ∀ (ops : List Op) (st : State), Op.opInit ∉ ops →
      occupiedCount (ops.foldl step st).tracker.blocks + (runSucc st ops).2
        = occupiedCount st.tracker.blocks + (runSucc st ops).1 := by
  intro ops
  induction ops with
  | nil => intro st _; simp [runSucc]
  | cons op ops ih =>
    intro st hno
    have hno' : Op.opInit ∉ ops := fun h => hno (List.mem_cons_of_mem _ h)
    have ihs := ih (step st op) hno'
    rw [List.foldl_cons]
    have hr1 : (runSucc st (op :: ops)).1
        = (if opAllocSucc st op then 1 else 0)
          + (runSucc (step st op) ops).1 := rfl
    have hr2 : (runSucc st (op :: ops)).2
        = (if opFreeSucc st op then 1 else 0)
          + (runSucc (step st op) ops).2 := rfl
    rw [hr1, hr2]
    cases op with
    | opInit => exact absurd (List.mem_cons_self Op.opInit ops) hno
    | opReport =>
      have hA : ¬ (opAllocSucc st Op.opReport = true) := by
        simp [opAllocSucc]
      have hF : ¬ (opFreeSucc st Op.opReport = true) := by
        simp [opFreeSucc]
      rw [if_neg hA, if_neg hF]
      have hstep : step st Op.opReport = st := rfl
      rw [hstep] at ihs ⊢
      omega
    | opAlloc size f l ty m =>
      have hFb : opFreeSucc st (Op.opAlloc size f l ty m) = false := rfl
      have hF : ¬ (opFreeSucc st (Op.opAlloc size f l ty m) = true) := by
        simp [hFb]
      rw [if_neg hF]
      have hstep : step st (Op.opAlloc size f l ty m)
          = (safe_memory_allocate st size f l ty m).1 := rfl
      rcases occ_alloc st size f l ty m with ⟨hret, hst⟩ | ⟨hret, hm, hocc⟩
      · have hAb : opAllocSucc st (Op.opAlloc size f l ty m) = false := by
          simp only [opAllocSucc]
          rw [hret]
          decide
        have hA : ¬ (opAllocSucc st (Op.opAlloc size f l ty m) = true) := by
          simp [hAb]
        rw [if_neg hA]
        rw [hstep, hst] at ihs ⊢
        omega
      · have hA : opAllocSucc st (Op.opAlloc size f l ty m) = true := by
          simp only [opAllocSucc]
          rw [hret]
          simpa using hm
        rw [if_pos hA]
        rw [hstep] at ihs ⊢
        rw [hocc] at ihs
        omega
    | opFree p f l =>
      have hAb : opAllocSucc st (Op.opFree p f l) = false := rfl
      have hA : ¬ (opAllocSucc st (Op.opFree p f l) = true) := by
        simp [hAb]
      rw [if_neg hA]
      have hstep : step st (Op.opFree p f l)
          = (safe_memory_free st p f l).1 := rfl
      by_cases hp : p = 0
      · have hFb : opFreeSucc st (Op.opFree p f l) = false := by
          simp only [opFreeSucc]
          rw [hp]
          rfl
        have hF : ¬ (opFreeSucc st (Op.opFree p f l) = true) := by
          simp [hFb]
        have hst : (safe_memory_free st p f l).1 = st := by
          simp [safe_memory_free, hp]
        rw [if_neg hF]
        rw [hstep, hst] at ihs ⊢
        omega
      · cases hfs : freeScan p st.tracker.blocks with
        | none =>
          have hFb : opFreeSucc st (Op.opFree p f l) = false := by
            simp only [opFreeSucc]
            rw [hfs]
            simp
          have hF : ¬ (opFreeSucc st (Op.opFree p f l) = true) := by
            simp [hFb]
          have hst : (safe_memory_free st p f l).1 = st := by
            simp [safe_memory_free, hp, hfs]
          rw [if_neg hF]
          rw [hstep, hst] at ihs ⊢
          omega
        | some pr =>
          have hF : opFreeSucc st (Op.opFree p f l) = true := by
            simp only [opFreeSucc]
            rw [hfs]
            simpa using hp
          rw [if_pos hF]
          have hfs' := hfs
          rw [freeScan_eq] at hfs'
          cases hscan : scanIdx (fun b => b.pointer == p)
              st.tracker.blocks with
          | none => rw [hscan] at hfs'; simp at hfs'
          | some i =>
            rw [hscan] at hfs'
            simp only [Option.map_some'] at hfs'
            have hst : (safe_memory_free st p f l).1
                = { st with tracker :=
                    { blocks := st.tracker.blocks.set i zeroBlock,
                      current_block_count :=
                        sub64 st.tracker.current_block_count 1,
                      total_allocated_memory :=
                        sub64 st.tracker.total_allocated_memory
                          (st.tracker.blocks.getD i zeroBlock).size } } := by
              simp [safe_memory_free, hp, hfs, ← hfs']
            have hocc := occ_free_count st p i hp hscan
            rw [hstep, hst] at ihs ⊢
            have hred : ({ st with tracker :=
                { blocks := st.tracker.blocks.set i zeroBlock,
                  current_block_count :=
                    sub64 st.tracker.current_block_count 1,
                  total_allocated_memory :=
                    sub64 st.tracker.total_allocated_memory
                      (st.tracker.blocks.getD i zeroBlock).size } }
                  : State).tracker.blocks
                = st.tracker.blocks.set i zeroBlock := rfl
            rw [hred] at ihs
            omega

/-! ## Claim theorems -/

/-- C1: after every sequence of initialize/allocate/free/report
operations, `current_block_count` equals the number of slots whose
pointer is non-null, and `total_allocated_memory` equals the sum of the
sizes of those slots as maintained by the 64-bit counter — the sum
modulo `2 ^ 64`, hence exactly that sum whenever it fits in 64 bits (as
in any physically realizable execution). -/
theorem aggregate_consistency (ops : List Op) :
    get_current_block_count (run ops)
      = occupiedCount (run ops).tracker.blocks ∧
    get_total_allocated_memory (run ops)
      = occupiedBytes (run ops).tracker.blocks % M64 ∧
    (occupiedBytes (run ops).tracker.blocks < M64 →
      get_total_allocated_memory (run ops)
        = occupiedBytes (run ops).tracker.blocks) := by
  obtain ⟨-, hcount, htotal, -⟩ := WF_run ops
  exact ⟨hcount, htotal, fun h => htotal.trans (Nat.mod_eq_of_lt h)⟩

/-- Witness for C1 at the round-trip sequence: allocate 20 and 50 bytes,
then free the first handle. -/
theorem aggregate_consistency_witness :
    get_current_block_count (run
        [Op.opAlloc 20 "main.c" 27 .MEMORY_TYPE_DYNAMIC 1,
         Op.opAlloc 50 "main.c" 33 .MEMORY_TYPE_TEMPORARY 2,
         Op.opFree 1 "main.c" 55])
      = occupiedCount (run
          [Op.opAlloc 20 "main.c" 27 .MEMORY_TYPE_DYNAMIC 1,
           Op.opAlloc 50 "main.c" 33 .MEMORY_TYPE_TEMPORARY 2,
           Op.opFree 1 "main.c" 55]).tracker.blocks ∧
    get_total_allocated_memory (run
        [Op.opAlloc 20 "main.c" 27 .MEMORY_TYPE_DYNAMIC 1,
         Op.opAlloc 50 "main.c" 33 .MEMORY_TYPE_TEMPORARY 2,
         Op.opFree 1 "main.c" 55])
      = occupiedBytes (run
          [Op.opAlloc 20 "main.c" 27 .MEMORY_TYPE_DYNAMIC 1,
           Op.opAlloc 50 "main.c" 33 .MEMORY_TYPE_TEMPORARY 2,
           Op.opFree 1 "main.c" 55]).tracker.blocks % M64 ∧
    (occupiedBytes (run
          [Op.opAlloc 20 "main.c" 27 .MEMORY_TYPE_DYNAMIC 1,
           Op.opAlloc 50 "main.c" 33 .MEMORY_TYPE_TEMPORARY 2,
           Op.opFree 1 "main.c" 55]).tracker.blocks < M64 →
      get_total_allocated_memory (run
          [Op.opAlloc 20 "main.c" 27 .MEMORY_TYPE_DYNAMIC 1,
           Op.opAlloc 50 "main.c" 33 .MEMORY_TYPE_TEMPORARY 2,
           Op.opFree 1 "main.c" 55])
        = occupiedBytes (run
            [Op.opAlloc 20 "main.c" 27 .MEMORY_TYPE_DYNAMIC 1,
             Op.opAlloc 50 "main.c" 33 .MEMORY_TYPE_TEMPORARY 2,
             Op.opFree 1 "main.c" 55]).tracker.blocks) :=
  aggregate_consistency
    [Op.opAlloc 20 "main.c" 27 .MEMORY_TYPE_DYNAMIC 1,
     Op.opAlloc 50 "main.c" 33 .MEMORY_TYPE_TEMPORARY 2,
     Op.opFree 1 "main.c" 55]

/-- C10: after any sequence of public operations, every slot whose
pointer is non-null has status `MEMORY_STATUS_ALLOCATED`, and neither
`MEMORY_STATUS_FREED` (assigned transiently inside `safe_memory_free`
but erased by the clearing `memset` before it returns) nor
`MEMORY_STATUS_CORRUPTED` (never assigned) is observable in any slot
between operations. -/
theorem status_never_freed_or_corrupted (ops : List Op) :
    ∀ b ∈ (run ops).tracker.blocks,
      (b.pointer ≠ 0 → b.status = MemoryStatus.MEMORY_STATUS_ALLOCATED) ∧
      b.status ≠ MemoryStatus.MEMORY_STATUS_FREED ∧
      b.status ≠ MemoryStatus.MEMORY_STATUS_CORRUPTED := by
  obtain ⟨-, -, -, hblocks⟩ := WF_run ops
  intro b hb
  obtain ⟨-, -, hstatus⟩ := hblocks b hb
  refine ⟨fun _ => hstatus, ?_, ?_⟩
  · rw [hstatus]; decide
  · rw [hstatus]; decide

/-- Witness for C10 at the empty run and the zero block. -/
theorem status_never_freed_or_corrupted_witness :
    zeroBlock ∈ (run []).tracker.blocks ∧
      ((zeroBlock.pointer ≠ 0 →
          zeroBlock.status = MemoryStatus.MEMORY_STATUS_ALLOCATED) ∧
        zeroBlock.status ≠ MemoryStatus.MEMORY_STATUS_FREED ∧
        zeroBlock.status ≠ MemoryStatus.MEMORY_STATUS_CORRUPTED) := by
  have hmem : zeroBlock ∈ (run []).tracker.blocks := by
    show zeroBlock ∈ List.replicate MAX_TRACKED_BLOCKS zeroBlock
    rw [List.mem_replicate]
    exact ⟨by decide, rfl⟩
  exact ⟨hmem, status_never_freed_or_corrupted [] zeroBlock hmem⟩

/-- C4: an allocate request of zero bytes, in any tracker state, emits
the zero-byte warning and returns the null handle without touching the
table, `current_block_count` or `total_allocated_memory`. -/
theorem alloc_zero_size (st : State) (f : String) (l : Int)
    (ty : MemoryAllocationType) (m : Nat) :
    safe_memory_allocate st 0 f l ty m
      = (st, [Event.warnZeroByte], AllocOutcome.ret 0) := by
  simp [safe_memory_allocate]

/-- Witness for C4 at `demoState`. -/
theorem alloc_zero_size_witness :
    safe_memory_allocate demoState 0 "main.c" 27
        MemoryAllocationType.MEMORY_TYPE_DYNAMIC 5
      = (demoState, [Event.warnZeroByte], AllocOutcome.ret 0) :=
  alloc_zero_size demoState "main.c" 27
    MemoryAllocationType.MEMORY_TYPE_DYNAMIC 5

/-- C2 (counterexample): in the fixed-table tracker of
`memory_manager.c`, at `initState` with `size = 5` (positive, table far
below capacity, a free slot available) and the underlying allocator
failing (`mallocResult = 0`), `safe_memory_allocate` returns the empty
handle `ret 0` to the caller — the operation does not halt the
process. -/
theorem alloc_malloc_failure_returns_null :
    (safe_memory_allocate initState 5 "main.c" 27
        MemoryAllocationType.MEMORY_TYPE_DYNAMIC 0).2.2
      = AllocOutcome.ret 0 ∧
    (safe_memory_allocate initState 5 "main.c" 27
        MemoryAllocationType.MEMORY_TYPE_DYNAMIC 0).2.2
      ≠ AllocOutcome.halted := by
  constructor
  · decide
  · decide

/-- C2 (amended): on allocator failure with a positive size and a table
below capacity, the fixed-table variant (`memory_manager.c`) emits the
CRITICAL diagnostic naming the call site and returns the empty handle
with the tracker unchanged; the linked-list variant
(`memory_management_tool.c`) is the one that emits the diagnostic and
halts the process. -/
theorem alloc_malloc_failure_behaviour (st : State) (size : Nat)
    (f : String) (l : Int) (ty : MemoryAllocationType)
    (tl : List ToolMemoryBlock) (ty2 : ToolAllocType) (ok : Bool)
    (hs0 : size ≠ 0) (hslt : size < M64)
    (hcap : st.tracker.current_block_count < MAX_TRACKED_BLOCKS) :
    safe_memory_allocate st size f l ty 0
      = (st, [Event.mallocCall size, Event.critAllocFailed f l],
          AllocOutcome.ret 0) ∧
    tool_safe_memory_allocate tl size f l ty2 0 ok
      = (tl, [Event.mallocCall size, Event.critAllocFailed f l],
          AllocOutcome.halted) := by
  have h0 : ¬ (size % M64 = 0) := by
    rw [Nat.mod_eq_of_lt hslt]; exact hs0
  have hcap' : ¬ (MAX_TRACKED_BLOCKS ≤ st.tracker.current_block_count) := by
    omega
  constructor
  · simp [safe_memory_allocate, h0, hs0, hcap', Nat.mod_eq_of_lt hslt]
  · simp [tool_safe_memory_allocate, h0, hs0, Nat.mod_eq_of_lt hslt]

/-- Witness for the amended C2 at `initState`, size 5, both variants. -/
theorem alloc_malloc_failure_behaviour_witness :
    (5 : Nat) ≠ 0 ∧ (5 : Nat) < M64 ∧
    initState.tracker.current_block_count < MAX_TRACKED_BLOCKS ∧
    (safe_memory_allocate initState 5 "main.c" 27
        MemoryAllocationType.MEMORY_TYPE_DYNAMIC 0
      = (initState,
          [Event.mallocCall 5, Event.critAllocFailed "main.c" 27],
          AllocOutcome.ret 0) ∧
     tool_safe_memory_allocate [] 5 "main.c" 27
        ToolAllocType.MEMORY_TYPE_DYNAMIC 0 true
      = ([], [Event.mallocCall 5, Event.critAllocFailed "main.c" 27],
          AllocOutcome.halted)) :=
  ⟨by decide, by decide, by decide,
    alloc_malloc_failure_behaviour initState 5 "main.c" 27
      MemoryAllocationType.MEMORY_TYPE_DYNAMIC []
      ToolAllocType.MEMORY_TYPE_DYNAMIC true
      (by decide) (by decide) (by decide)⟩

/-- C3: for a positive size, when `current_block_count` equals the
capacity `MAX_TRACKED_BLOCKS = 1000` the allocate call emits the
tracker-full diagnostic and returns the empty handle without attempting
the underlying allocation (no `mallocCall` event) and without changing
any state; in any well-formed state below capacity, with real memory
available, the call succeeds and returns the allocator's handle. -/
theorem alloc_capacity_boundary (st : State) (size : Nat) (f : String)
    (l : Int) (ty : MemoryAllocationType) (m : Nat) (hwf : WF st)
    (hs0 : size ≠ 0) (hslt : size < M64) (hm0 : m ≠ 0) (hmlt : m < M64) :
    (st.tracker.current_block_count = MAX_TRACKED_BLOCKS →
      safe_memory_allocate st size f l ty m
        = (st, [Event.errTrackerFull], AllocOutcome.ret 0)) ∧
    (st.tracker.current_block_count < MAX_TRACKED_BLOCKS →
      (safe_memory_allocate st size f l ty m).2.2 = AllocOutcome.ret m) := by
  have h0 : ¬ (size % M64 = 0) := by
    rw [Nat.mod_eq_of_lt hslt]; exact hs0
  constructor
  · intro hcap
    have hge : MAX_TRACKED_BLOCKS ≤ st.tracker.current_block_count :=
      le_of_eq hcap.symm
    simp [safe_memory_allocate, h0, hge]
  · intro hcap
    obtain ⟨hlen, hcount, -, -⟩ := hwf
    have hm' : ¬ (m % M64 = 0) := by
      rw [Nat.mod_eq_of_lt hmlt]; exact hm0
    have hnotfull : ¬ (MAX_TRACKED_BLOCKS
        ≤ st.tracker.current_block_count) := by omega
    have hocc : occupiedCount st.tracker.blocks
        < st.tracker.blocks.length := by
      rw [hlen]
      rw [hcount] at hcap
      exact hcap
    have hex : ∃ b ∈ st.tracker.blocks, (b.pointer == 0) = true := by
      by_contra hno
      push_neg at hno
      have hall : ∀ b ∈ st.tracker.blocks, isOccupied b = true := by
        intro b hb
        have h1 := hno b hb
        have h2 : (b.pointer == 0) = false := by
          cases hbe : (b.pointer == 0)
          · rfl
          · exact absurd hbe h1
        have h3 : b.pointer ≠ 0 := by
          intro hc
          rw [hc] at h2
          simp at h2
        unfold isOccupied
        simpa using h3
      have hfull : occupiedCount st.tracker.blocks
          = st.tracker.blocks.length := by
        rw [occupiedCount, List.countP_eq_length]
        exact hall
      omega
    obtain ⟨i, hscan⟩ :=
      scanIdx_isSome_of_exists (fun b => b.pointer == 0)
        st.tracker.blocks hex
    have hfind : find_available_slot st.tracker.blocks = some i := hscan
    simp [safe_memory_allocate, h0, hs0, hm', hm0, hnotfull, hfind,
      Nat.mod_eq_of_lt hmlt]

/-- Witness for C3 at `initState` (below capacity, so the second
implication is exercised). -/
theorem alloc_capacity_boundary_witness :
    WF initState ∧ (5 : Nat) ≠ 0 ∧ (5 : Nat) < M64 ∧ (7 : Nat) ≠ 0 ∧
    (7 : Nat) < M64 ∧
    ((initState.tracker.current_block_count = MAX_TRACKED_BLOCKS →
      safe_memory_allocate initState 5 "main.c" 27
          MemoryAllocationType.MEMORY_TYPE_DYNAMIC 7
        = (initState, [Event.errTrackerFull], AllocOutcome.ret 0)) ∧
     (initState.tracker.current_block_count < MAX_TRACKED_BLOCKS →
      (safe_memory_allocate initState 5 "main.c" 27
          MemoryAllocationType.MEMORY_TYPE_DYNAMIC 7).2.2
        = AllocOutcome.ret 7)) :=
  ⟨WF_run [], by decide, by decide, by decide, by decide,
    alloc_capacity_boundary initState 5 "main.c" 27
      MemoryAllocationType.MEMORY_TYPE_DYNAMIC 7 (WF_run [])
      (by decide) (by decide) (by decide) (by decide)⟩

/-- C5: freeing a non-null handle that matches no occupied slot (never
tracked, or already freed — including the second free of a handle whose
unique slot was just cleared) emits the untracked-free diagnostic,
still releases the real memory through the underlying `free`, and
leaves the table, `current_block_count` and `total_allocated_memory`
unchanged. -/
theorem free_untracked (st : State) (p : Nat) (f1 f2 : String)
    (l1 l2 : Int) (hp : p ≠ 0) :
    ((∀ b ∈ st.tracker.blocks, b.pointer ≠ p) →
      safe_memory_free st p f1 l1
        = (st, [Event.warnUntrackedFree f1 l1, Event.freeCall p])) ∧
    (st.tracker.blocks.countP (fun b => b.pointer == p) = 1 →
      safe_memory_free (safe_memory_free st p f1 l1).1 p f2 l2
        = ((safe_memory_free st p f1 l1).1,
            [Event.warnUntrackedFree f2 l2, Event.freeCall p])) := by
  constructor
  · intro hall
    have hnone : scanIdx (fun b => b.pointer == p) st.tracker.blocks
        = none := by
      rw [scanIdx_none_iff]
      intro b hb
      have hne := hall b hb
      cases hbe : (b.pointer == p)
      · rfl
      · exact absurd (eq_of_beq hbe) hne
    have hfs : freeScan p st.tracker.blocks = none := by
      rw [freeScan_eq, hnone]; rfl
    simp [safe_memory_free, hp, hfs]
  · intro hcnt
    have hpos : 0 < st.tracker.blocks.countP (fun b => b.pointer == p) := by
      omega
    obtain ⟨b0, hb0, hb0p⟩ := List.countP_pos_iff.mp hpos
    obtain ⟨i, hscan⟩ := scanIdx_isSome_of_exists
      (fun b => b.pointer == p) st.tracker.blocks ⟨b0, hb0, hb0p⟩
    obtain ⟨hilt, hqi, -⟩ := scanIdx_some_spec
      (fun b => b.pointer == p) zeroBlock st.tracker.blocks i hscan
    have hfs : freeScan p st.tracker.blocks
        = some (st.tracker.blocks.set i zeroBlock,
            (st.tracker.blocks.getD i zeroBlock).size) := by
      rw [freeScan_eq, hscan]; rfl
    have hzq : ((zeroBlock : MemoryBlock).pointer == p) = false := by
      cases hbe : ((zeroBlock : MemoryBlock).pointer == p)
      · rfl
      · exact absurd (eq_of_beq hbe).symm hp
    have hz : (st.tracker.blocks.set i zeroBlock).countP
        (fun b => b.pointer == p) = 0 := by
      have := countP_set_true_false (fun b => b.pointer == p) zeroBlock
        st.tracker.blocks i zeroBlock hilt hqi hzq
      omega
    have hall2 : ∀ b ∈ st.tracker.blocks.set i zeroBlock,
        (b.pointer == p) = false := by
      intro b hb
      have hnb := List.countP_eq_zero.mp hz b hb
      cases hbe : (b.pointer == p)
      · rfl
      · exact absurd hbe hnb
    have hnone2 : scanIdx (fun b => b.pointer == p)
        (st.tracker.blocks.set i zeroBlock) = none :=
      (scanIdx_none_iff _ _).mpr hall2
    have hfs2 : freeScan p (st.tracker.blocks.set i zeroBlock) = none := by
      rw [freeScan_eq, hnone2]; rfl
    have hblocks1 : (safe_memory_free st p f1 l1).1.tracker.blocks
        = st.tracker.blocks.set i zeroBlock := by
      simp [safe_memory_free, hp, hfs]
    simp [safe_memory_free, hp, hfs, hblocks1, hfs2]

/-- Witness for C5 at `demoState` (whose single occupied slot holds
handle 7, so the double-free clause applies). -/
theorem free_untracked_witness :
    (7 : Nat) ≠ 0 ∧
    (((∀ b ∈ demoState.tracker.blocks, b.pointer ≠ 7) →
      safe_memory_free demoState 7 "a.c" 1
        = (demoState,
            [Event.warnUntrackedFree "a.c" 1, Event.freeCall 7])) ∧
     (demoState.tracker.blocks.countP (fun b => b.pointer == 7) = 1 →
      safe_memory_free (safe_memory_free demoState 7 "a.c" 1).1 7 "b.c" 2
        = ((safe_memory_free demoState 7 "a.c" 1).1,
            [Event.warnUntrackedFree "b.c" 2, Event.freeCall 7]))) :=
  ⟨by decide, free_untracked demoState 7 "a.c" "b.c" 1 2 (by decide)⟩

/-- C6: freeing a non-null handle whose linear scan finds slot `i`
subtracts that slot's size from `total_allocated_memory` and decrements
`current_block_count` (both with the 64-bit wrapping arithmetic the C
unsigned operations perform), releases the real memory, clears slot `i`
to the all-zero empty record and leaves every other slot unchanged. -/
theorem free_found (st : State) (p : Nat) (f : String) (l : Int) (i : Nat)
    (hp : p ≠ 0)
    (hscan : scanIdx (fun b => b.pointer == p) st.tracker.blocks
      = some i) :
    i < st.tracker.blocks.length ∧
    (st.tracker.blocks.getD i zeroBlock).pointer = p ∧
    safe_memory_free st p f l
      = ({ st with tracker :=
            { blocks := st.tracker.blocks.set i zeroBlock,
              current_block_count :=
                sub64 st.tracker.current_block_count 1,
              total_allocated_memory :=
                sub64 st.tracker.total_allocated_memory
                  (st.tracker.blocks.getD i zeroBlock).size } },
          [Event.freeCall p]) ∧
    (st.tracker.blocks.set i zeroBlock).getD i zeroBlock = zeroBlock ∧
    (∀ j, j ≠ i → (st.tracker.blocks.set i zeroBlock).getD j zeroBlock
      = st.tracker.blocks.getD j zeroBlock) := by
  obtain ⟨hilt, hqi, -⟩ := scanIdx_some_spec
    (fun b => b.pointer == p) zeroBlock st.tracker.blocks i hscan
  have hfs : freeScan p st.tracker.blocks
      = some (st.tracker.blocks.set i zeroBlock,
          (st.tracker.blocks.getD i zeroBlock).size) := by
    rw [freeScan_eq, hscan]; rfl
  refine ⟨hilt, eq_of_beq hqi, ?_,
    getD_set_eq zeroBlock st.tracker.blocks i zeroBlock hilt,
    fun j hj => getD_set_ne zeroBlock st.tracker.blocks i j zeroBlock hj⟩
  simp [safe_memory_free, hp, hfs]

/-- Witness for C6 at `demoState`, whose slot 0 holds handle 7 with
size 20. -/
theorem free_found_witness :
    (7 : Nat) ≠ 0 ∧
    scanIdx (fun b => b.pointer == 7) demoState.tracker.blocks = some 0 ∧
    (0 < demoState.tracker.blocks.length ∧
     (demoState.tracker.blocks.getD 0 zeroBlock).pointer = 7 ∧
     safe_memory_free demoState 7 "main.c" 55
       = ({ demoState with tracker :=
             { blocks := demoState.tracker.blocks.set 0 zeroBlock,
               current_block_count :=
                 sub64 demoState.tracker.current_block_count 1,
               total_allocated_memory :=
                 sub64 demoState.tracker.total_allocated_memory
                   (demoState.tracker.blocks.getD 0 zeroBlock).size } },
           [Event.freeCall 7]) ∧
     (demoState.tracker.blocks.set 0 zeroBlock).getD 0 zeroBlock
       = zeroBlock ∧
     (∀ j, j ≠ 0 →
       (demoState.tracker.blocks.set 0 zeroBlock).getD j zeroBlock
         = demoState.tracker.blocks.getD j zeroBlock)) :=
  ⟨by decide, by decide,
    free_found demoState 7 "main.c" 55 0 (by decide) (by decide)⟩

/-- C7: every successful allocate picks the free slot with the lowest
index (linear scan from the start: slot `i` is free and all lower slots
are occupied), populates it with the returned address, the requested
size, the truncated site string, the category, status `Allocated` and
the next sequence value, increments `current_block_count` and adds the
size to `total_allocated_memory`. -/
theorem alloc_success_populates (st : State) (size : Nat) (f : String)
    (l : Int) (ty : MemoryAllocationType) (m : Nat) (i : Nat)
    (hs0 : size ≠ 0) (hslt : size < M64) (hm0 : m ≠ 0) (hmlt : m < M64)
    (hcap : st.tracker.current_block_count < MAX_TRACKED_BLOCKS)
    (hfind : find_available_slot st.tracker.blocks = some i) :
    i < st.tracker.blocks.length ∧
    (st.tracker.blocks.getD i zeroBlock).pointer = 0 ∧
    (∀ j, j < i → (st.tracker.blocks.getD j zeroBlock).pointer ≠ 0) ∧
    safe_memory_allocate st size f l ty m
      = ({ tracker :=
            { blocks := st.tracker.blocks.set i
                { pointer := m, size := size,
                  filename := truncateName f, line_number := l, type := ty,
                  status := MemoryStatus.MEMORY_STATUS_ALLOCATED,
                  timestamp := add64 st.timestampCounter 1 },
              current_block_count :=
                add64 st.tracker.current_block_count 1,
              total_allocated_memory :=
                add64 st.tracker.total_allocated_memory size },
           timestampCounter := add64 st.timestampCounter 1 },
         [Event.mallocCall size], AllocOutcome.ret m) := by
  have hfind' : scanIdx (fun b => b.pointer == 0) st.tracker.blocks
      = some i := hfind
  obtain ⟨hilt, hqi, hprev⟩ := scanIdx_some_spec
    (fun b => b.pointer == 0) zeroBlock st.tracker.blocks i hfind'
  have h0 : ¬ (size % M64 = 0) := by
    rw [Nat.mod_eq_of_lt hslt]; exact hs0
  have hm' : ¬ (m % M64 = 0) := by
    rw [Nat.mod_eq_of_lt hmlt]; exact hm0
  have hnotfull : ¬ (MAX_TRACKED_BLOCKS
      ≤ st.tracker.current_block_count) := by omega
  refine ⟨hilt, eq_of_beq hqi, ?_, ?_⟩
  · intro j hj hc
    have hfalse := hprev j hj
    rw [hc] at hfalse
    simp at hfalse
  · simp [safe_memory_allocate, h0, hs0, hnotfull, hm', hm0, hfind,
      Nat.mod_eq_of_lt hslt, Nat.mod_eq_of_lt hmlt]

/-- Witness for C7 at `initState`: the first allocation lands in
slot 0. -/
theorem alloc_success_populates_witness :
    (20 : Nat) ≠ 0 ∧ (20 : Nat) < M64 ∧ (7 : Nat) ≠ 0 ∧ (7 : Nat) < M64 ∧
    initState.tracker.current_block_count < MAX_TRACKED_BLOCKS ∧
    find_available_slot initState.tracker.blocks = some 0 ∧
    (0 < initState.tracker.blocks.length ∧
     (initState.tracker.blocks.getD 0 zeroBlock).pointer = 0 ∧
     (∀ j, j < 0 →
       (initState.tracker.blocks.getD j zeroBlock).pointer ≠ 0) ∧
     safe_memory_allocate initState 20 "main.c" 27
         MemoryAllocationType.MEMORY_TYPE_DYNAMIC 7
       = ({ tracker :=
             { blocks := initState.tracker.blocks.set 0
                 { pointer := 7, size := 20,
                   filename := truncateName "main.c", line_number := 27,
                   type := MemoryAllocationType.MEMORY_TYPE_DYNAMIC,
                   status := MemoryStatus.MEMORY_STATUS_ALLOCATED,
                   timestamp := add64 initState.timestampCounter 1 },
               current_block_count :=
                 add64 initState.tracker.current_block_count 1,
               total_allocated_memory :=
                 add64 initState.tracker.total_allocated_memory 20 },
            timestampCounter := add64 initState.timestampCounter 1 },
          [Event.mallocCall 20], AllocOutcome.ret 7)) :=
  ⟨by decide, by decide, by decide, by decide, by decide, by decide,
    alloc_success_populates initState 20 "main.c" 27
      MemoryAllocationType.MEMORY_TYPE_DYNAMIC 7 0
      (by decide) (by decide) (by decide) (by decide) (by decide)
      (by decide)⟩

/-- C9: every failure return of allocate (null handle) leaves the whole
state — table, counters and sequence counter — exactly as before the
call, and on the defensive no-free-slot path the just-acquired real
memory is released (`freeCall` event) before the empty handle is
returned. -/
theorem alloc_failure_state_unchanged (st : State) (size : Nat)
    (f : String) (l : Int) (ty : MemoryAllocationType) (m : Nat) :
    ((safe_memory_allocate st size f l ty m).2.2 = AllocOutcome.ret 0 →
      (safe_memory_allocate st size f l ty m).1 = st) ∧
    (size % M64 ≠ 0 →
      st.tracker.current_block_count < MAX_TRACKED_BLOCKS →
      m % M64 ≠ 0 →
      find_available_slot st.tracker.blocks = none →
      safe_memory_allocate st size f l ty m
        = (st, [Event.mallocCall (size % M64), Event.freeCall (m % M64)],
            AllocOutcome.ret 0)) := by
  constructor
  · intro hret
    rcases occ_alloc st size f l ty m with ⟨-, hst⟩ | ⟨hret2, hm, -⟩
    · exact hst
    · rw [hret] at hret2
      exact absurd (AllocOutcome.ret.inj hret2).symm hm
  · intro h0 hcap hm hfind
    have hnotfull : ¬ (MAX_TRACKED_BLOCKS
        ≤ st.tracker.current_block_count) := by omega
    simp [safe_memory_allocate, h0, hnotfull, hm, hfind]

/-- Witness for C9 at `noSlotState`, where the table has no free slot
while the counter is below capacity. -/
theorem alloc_failure_state_unchanged_witness :
    (4 : Nat) % M64 ≠ 0 ∧
    noSlotState.tracker.current_block_count < MAX_TRACKED_BLOCKS ∧
    (9 : Nat) % M64 ≠ 0 ∧
    find_available_slot noSlotState.tracker.blocks = none ∧
    safe_memory_allocate noSlotState 4 "x.c" 3
        MemoryAllocationType.MEMORY_TYPE_TEMPORARY 9
      = (noSlotState,
          [Event.mallocCall (4 % M64), Event.freeCall (9 % M64)],
          AllocOutcome.ret 0) :=
  ⟨by decide, by decide, by decide, by decide,
    (alloc_failure_state_unchanged noSlotState 4 "x.c" 3
        MemoryAllocationType.MEMORY_TYPE_TEMPORARY 9).2
      (by decide) (by decide) (by decide) (by decide)⟩

/-- C8: report (`generate_memory_report`) is a pure function of the state (the
report step never mutates the table and is safe in any state, including
with zero occupied slots); its entries are exactly the occupied slots,
listed in ascending slot-index order, together with the two aggregates;
and after `N` successful allocations and `M` successful frees (no
re-initialization in between) it lists exactly `N - M` entries, with
`M ≤ N`. -/
theorem report_complete :
    (∀ st : State, step st Op.opReport = st) ∧
    (∀ st : State,
      (generate_memory_report st).total_blocks
          = get_current_block_count st ∧
      (generate_memory_report st).total_allocated
          = get_total_allocated_memory st) ∧
    (∀ (st : State) (j : Nat) (b : MemoryBlock),
      (j, b) ∈ (generate_memory_report st).entries ↔
        st.tracker.blocks.get? j = some b ∧ b.pointer ≠ 0) ∧
    (∀ st : State, List.Pairwise (fun x y => x.1 < y.1)
      (generate_memory_report st).entries) ∧
    (∀ st : State, (generate_memory_report st).entries.length
      = occupiedCount st.tracker.blocks) ∧
    (∀ ops : List Op, Op.opInit ∉ ops →
      (runSucc initState ops).2 ≤ (runSucc initState ops).1 ∧
      (generate_memory_report (run ops)).entries.length
        = (runSucc initState ops).1 - (runSucc initState ops).2) := by
  have hmem : ∀ (st : State) (j : Nat) (b : MemoryBlock),
      (j, b) ∈ (generate_memory_report st).entries ↔
        st.tracker.blocks.get? j = some b ∧ b.pointer ≠ 0 := by
    intro st j b
    constructor
    · intro h
      obtain ⟨k, hk, hj, hb⟩ :=
        (reportEntries_mem st.tracker.blocks 0 j b).mp h
      have hjk : j = k := by omega
      subst hjk
      exact ⟨hk, hb⟩
    · rintro ⟨hk, hb⟩
      exact (reportEntries_mem st.tracker.blocks 0 j b).mpr
        ⟨j, hk, by omega, hb⟩
  have hlen : ∀ st : State, (generate_memory_report st).entries.length
      = occupiedCount st.tracker.blocks := by
    intro st
    exact reportEntries_length st.tracker.blocks 0
  have hocc0 : occupiedCount initState.tracker.blocks = 0 := by
    rw [occupiedCount, List.countP_eq_zero]
    intro b hb
    have hzb : b = zeroBlock := List.eq_of_mem_replicate hb
    rw [hzb]
    simp [isOccupied, zeroBlock]
  refine ⟨fun _ => rfl, fun _ => ⟨rfl, rfl⟩, hmem, ?_, hlen, ?_⟩
  · intro st
    exact reportEntries_pairwise st.tracker.blocks 0
  · intro ops hno
    have h := occ_foldl ops initState hno
    rw [hocc0] at h
    have hl := hlen (run ops)
    constructor
    · omega
    · rw [hl]
      show occupiedCount (List.foldl step initState ops).tracker.blocks
        = (runSucc initState ops).1 - (runSucc initState ops).2
      omega

/-- Witness for C8: the report entry count after one successful
allocation and one successful free. -/
theorem report_complete_witness :
    Op.opInit ∉ [Op.opAlloc 20 "main.c" 27
        MemoryAllocationType.MEMORY_TYPE_DYNAMIC 1,
      Op.opFree 1 "main.c" 55] ∧
    ((runSucc initState [Op.opAlloc 20 "main.c" 27
          MemoryAllocationType.MEMORY_TYPE_DYNAMIC 1,
        Op.opFree 1 "main.c" 55]).2
      ≤ (runSucc initState [Op.opAlloc 20 "main.c" 27
          MemoryAllocationType.MEMORY_TYPE_DYNAMIC 1,
        Op.opFree 1 "main.c" 55]).1 ∧
     (generate_memory_report (run [Op.opAlloc 20 "main.c" 27
          MemoryAllocationType.MEMORY_TYPE_DYNAMIC 1,
        Op.opFree 1 "main.c" 55])).entries.length
      = (runSucc initState [Op.opAlloc 20 "main.c" 27
          MemoryAllocationType.MEMORY_TYPE_DYNAMIC 1,
        Op.opFree 1 "main.c" 55]).1
        - (runSucc initState [Op.opAlloc 20 "main.c" 27
            MemoryAllocationType.MEMORY_TYPE_DYNAMIC 1,
          Op.opFree 1 "main.c" 55]).2) :=
  ⟨by decide, report_complete.2.2.2.2.2
    [Op.opAlloc 20 "main.c" 27 MemoryAllocationType.MEMORY_TYPE_DYNAMIC 1,
     Op.opFree 1 "main.c" 55] (by decide)⟩

end MemMgr
